import Mathlib

/-!
Verification of the room/session coordination core of a multiplayer
word-guessing server (server.js).

The embedding below is a shallow model of the server's in-memory state and
its socket event handlers.  JavaScript strings are modelled as Lean `String`
(or `List Char` once split into characters), JS `Map`s as association lists
with `Map.get`/`Map.set`/`Map.delete` semantics, and JS `Set`s of numbers as
`List Nat` with set-insert semantics.  Randomness (`Math.random()`) is
modelled by an explicit `Nat` parameter `r`: the JS expression
`Math.floor(Math.random() * n)` yields an arbitrary index below `n`, which
we model as `r % n`.  Socket emissions (`socket.emit`, `io.to(room).emit`,
`io.emit`) are modelled as an explicit list of `Emit` values carrying their
audience.  The external word datasets (the `country-list` package and
`capitals.json`) are opaque inputs; handlers are parameterised by a `Pools`
value holding their contents, and the normalization applied to country
names (server.js line 34: `n.toUpperCase().replace(/[^A-Z ]/g, "")`) is
embedded as `normalizeCountryName`.
-/

namespace GeoWordle

/-- Feedback colour for one character position (server.js lines 301-305). -/
inductive Fb where
  | correct
  | present
  | absent
deriving DecidableEq, Repr

/-- A chat message `{ user: socket.id.slice(0, 5), text, timestamp }`
(server.js lines 111-115 and 222-226). -/
structure ChatMsg where
  user : String
  text : String
  timestamp : Nat
deriving DecidableEq, Repr

/-- A room record (server.js lines 141-149).  `players` keeps the roster of
socket ids (the JS `Map` additionally stores avatar descriptors, which no
handler logic reads; they are elided).  `attempts` is the JS
`Map<socketId, string[]>` of guess histories, `hintedIndices` the JS
`Set<number>` of revealed letter positions, `messages` the room chat log. -/
structure Room where
  mode : String
  answer : List Char
  players : List String
  attempts : List (String × List (List Char))
  hintedIndices : List Nat
  messages : List ChatMsg
deriving DecidableEq, Repr

/-- JS `Map.get`: lookup in an association list. -/
def alookup {α : Type} : List (String × α) → String → Option α
  | [], _ => none
  | (k, v) :: rest, key => if k = key then some v else alookup rest key

/-- JS `Map.set`: replace the binding for the key if present, else append. -/
def aupdate {α : Type} : List (String × α) → String → α → List (String × α)
  | [], key, v => [(key, v)]
  | (k, w) :: rest, key, v =>
    if k = key then (key, v) :: rest else (k, w) :: aupdate rest key v

/-- JS `Map.delete`: remove the binding for the key. -/
def adelete {α : Type} (m : List (String × α)) (key : String) :
    List (String × α) :=
  m.filter (fun p => p.1 ≠ key)

/-- JS `Set.add` for a set of numbers held as a list. -/
def setAdd (s : List Nat) (x : Nat) : List Nat :=
  if x ∈ s then s else s ++ [x]

/-- The external word pools: `countries` (from `country-list`, normalized at
startup, server.js lines 34-36) and `capitalCities` (from `capitals.json`,
line 37), each word already split into characters. -/
structure Pools where
  countries : List (List Char)
  capitalCities : List (List Char)
deriving DecidableEq, Repr

/-- Constant `MAX_ATTEMPTS` (server.js line 48). -/
def MAX_ATTEMPTS : Nat := 6

/-- Constant `MAX_LOBBY_MESSAGES` (server.js line 44). -/
def MAX_LOBBY_MESSAGES : Nat := 50

/-- Pool selection by mode, as written identically in `chooseAnswer`
(server.js lines 72-75) and in the `makeGuess` handler (lines 278-283):
`countries` / `capitalCities` / their concatenation. -/
def poolFor (ps : Pools) (mode : String) : List (List Char) :=
  if mode = "countries" then ps.countries
  else if mode = "cities" then ps.capitalCities
  else ps.countries ++ ps.capitalCities

/-- The country-name normalization applied at startup (server.js lines
34-36): `n.toUpperCase().replace(/[^A-Z ]/g, "")` — uppercase, then delete
every character that is neither an uppercase letter nor a space.  Note the
space inside the regex character class: spaces survive.  (JS `toUpperCase`
is modelled per character by `Char.toUpper`, adequate for ASCII names.) -/
def normalizeCountryName (s : String) : List Char :=
  (s.data.map Char.toUpper).filter
    (fun c => (decide ('A' ≤ c) && decide (c ≤ 'Z')) || c == ' ')

/-- Modelled from the spec (§4.1): the pool-word shape the specification
describes, "non-letter characters stripped from source names" — uppercase,
then delete every non-letter including spaces.  Kept only to compare with
`normalizeCountryName`, which is what the code actually does. -/
def specStripNonLetters (s : String) : List Char :=
  (s.data.map Char.toUpper).filter
    (fun c => decide ('A' ≤ c) && decide (c ≤ 'Z'))

/-- Strip whitespace from both ends of a character list (JS `trim`). -/
def trimChars (l : List Char) : List Char :=
  ((l.dropWhile Char.isWhitespace).reverse.dropWhile Char.isWhitespace).reverse

/-- JS `guess.toUpperCase().trim()` (server.js line 271), at character
level: uppercase every character, then strip whitespace from both ends. -/
def normalizeGuess (s : String) : List Char :=
  trimChars (s.data.map Char.toUpper)

/-- JS `socket.id.slice(0, 5)` (server.js lines 112 and 223). -/
def idSlice5 (sid : String) : String :=
  String.mk (sid.data.take 5)

/-- Function `chooseAnswer(mode)` (server.js lines 71-77): pick a uniformly random
element of the pool selected by the mode.  The random draw
`Math.floor(Math.random() * pool.length)` is modelled by `r % pool.length`. -/
def chooseAnswer (ps : Pools) (mode : String) (r : Nat) : List Char :=
  let pool := poolFor ps mode
  pool.getD (r % pool.length) []

/-- Per-character feedback rule (server.js lines 302-304): correct on a
positional match, else present on membership anywhere in the answer, else
absent. -/
def feedbackChar (answer : List Char) (g a : Char) : Fb :=
  if g = a then Fb.correct
  else if g ∈ answer then Fb.present
  else Fb.absent

/-- The feedback array (server.js lines 301-305):
`guess.split("").map((ch, i) => ...)` comparing `ch` with `answer[i]`; at the
call site the handler has already checked `guess.length === answer.length`,
so the positional walk is a zip of the two strings. -/
def feedback (answer guess : List Char) : List Fb :=
  List.zipWith (feedbackChar answer) guess answer

/-- A raw client payload that may or may not be a string
(`typeof guess !== "string"`). -/
inductive JsVal where
  | str (s : String)
  | nonString
deriving DecidableEq, Repr

/-- Payload of a server→client event (only the fields the handlers compute). -/
inductive EventPayload where
  | errorMsg (text : String)
  | roomCreated (code : String)
  | joined (code : String) (wordLength : Nat) (maxAttempts : Nat)
  | playerJoined (id : String)
  | chatMsg (m : ChatMsg)
  | hintEv (index : Nat) (letter : Char)
  | feedbackEv (guess : List Char) (fb : List Fb) (player : String)
  | gameOver (winner : Option String) (answer : List Char)
deriving DecidableEq, Repr

/-- One emission with its audience: `socket.emit` (one connection),
`io.to(code).emit` (the whole room), `socket.to(code).emit` (the room minus
the sender), `io.emit` (everyone). -/
inductive Emit where
  | toSocket (sid : String) (p : EventPayload)
  | toRoom (code : String) (p : EventPayload)
  | toRoomExcept (code : String) (sid : String) (p : EventPayload)
  | toAll (p : EventPayload)
deriving DecidableEq, Repr

/-- Result of one handler invocation: the updated room registry, the
connection's updated current-room binding, and the emissions issued. -/
structure HandlerResult where
  rooms : List (String × Room)
  currentRoom : Option String
  events : List Emit
deriving DecidableEq, Repr

/-- The error message of the pool-membership rejection (server.js lines
286-295): `Invalid location` / `Invalid country` / `Invalid capital city`
depending on mode. -/
def invalidWordMsg (mode : String) : String :=
  "Invalid " ++ (if mode = "both" then "location"
    else if mode = "countries" then "country" else "capital city")

/-- The `makeGuess` handler (server.js lines 257-324), for a connection with
id `sid` whose current-room binding is `currentRoom`, against registry
`rooms`, with raw payload `raw`.  Faithful control flow: not-in-room check,
string/falsy check, normalization `toUpperCase().trim()`, length check,
pool-membership check, attempt push, feedback broadcast, and the game-over
branch `guess === answer || attempts.length >= MAX_ATTEMPTS` which
broadcasts `gameOver` and deletes the room.  If the participant has no
attempts entry the JS `room.attempts.get(socket.id).push` throws; that
unreachable-in-protocol path is modelled as producing no emissions and no
state change. -/
def makeGuess (ps : Pools) (sid : String) (currentRoom : Option String)
    (rooms : List (String × Room)) (raw : JsVal) : HandlerResult :=
  match currentRoom with
  | none => ⟨rooms, none, [Emit.toSocket sid (EventPayload.errorMsg "You are not in a room")]⟩
  | some code =>
    match alookup rooms code with
    | none => ⟨rooms, some code, [Emit.toSocket sid (EventPayload.errorMsg "You are not in a room")]⟩
    | some room =>
      match raw with
      | JsVal.nonString =>
        ⟨rooms, some code, [Emit.toSocket sid (EventPayload.errorMsg "Invalid guess")]⟩
      | JsVal.str s =>
        if s = "" then
          ⟨rooms, some code, [Emit.toSocket sid (EventPayload.errorMsg "Invalid guess")]⟩
        else
          let guess := normalizeGuess s
          if guess.length ≠ room.answer.length then
            ⟨rooms, some code, [Emit.toSocket sid (EventPayload.errorMsg
              ("Guess must be " ++ toString room.answer.length ++ " letters"))]⟩
          else if guess ∉ poolFor ps room.mode then
            ⟨rooms, some code, [Emit.toSocket sid (EventPayload.errorMsg
              (invalidWordMsg room.mode))]⟩
          else
            match alookup room.attempts sid with
            | none => ⟨rooms, some code, []⟩
            | some as =>
              let as2 := as ++ [guess]
              let fbEv := Emit.toRoom code
                (EventPayload.feedbackEv guess (feedback room.answer guess) sid)
              if guess = room.answer ∨ as2.length ≥ MAX_ATTEMPTS then
                ⟨adelete rooms code, some code,
                 [fbEv, Emit.toRoom code (EventPayload.gameOver
                   (if guess = room.answer then some sid else none) room.answer)]⟩
              else
                ⟨aupdate rooms code { room with attempts := aupdate room.attempts sid as2 },
                 some code, [fbEv]⟩

/-- The room-chat handler (server.js lines 217-229): if bound to a live
room, append `{user: socket.id.slice(0,5), text, timestamp}` to the room's
`messages` array and broadcast it.  There is no capacity check on the room
log. -/
def chatMessage (sid : String) (currentRoom : Option String)
    (rooms : List (String × Room)) (text : String) (now : Nat) : HandlerResult :=
  match currentRoom with
  | none => ⟨rooms, none, [Emit.toSocket sid (EventPayload.errorMsg "You are not in a room")]⟩
  | some code =>
    match alookup rooms code with
    | none => ⟨rooms, some code, [Emit.toSocket sid (EventPayload.errorMsg "You are not in a room")]⟩
    | some room =>
      let m : ChatMsg := ⟨idSlice5 sid, text, now⟩
      ⟨aupdate rooms code { room with messages := room.messages ++ [m] },
       some code, [Emit.toRoom code (EventPayload.chatMsg m)]⟩

/-- The lobby-chat handler (server.js lines 110-121): push the message, then
`if (lobbyMessages.length > MAX_LOBBY_MESSAGES) lobbyMessages.shift()`.
Returns the updated lobby log and the broadcast. -/
def lobbyChatMessage (sid : String) (lobby : List ChatMsg) (text : String)
    (now : Nat) : List ChatMsg × Emit :=
  let m : ChatMsg := ⟨idSlice5 sid, text, now⟩
  let pushed := lobby ++ [m]
  (if MAX_LOBBY_MESSAGES < pushed.length then pushed.drop 1 else pushed,
   Emit.toAll (EventPayload.chatMsg m))

/-- The `available` array of the `requestHint` handler (server.js lines
239-241): the indices of the answer not yet in `hintedIndices`. -/
def availableIndices (room : Room) : List Nat :=
  (List.range room.answer.length).filter
    (fun i => !(room.hintedIndices.contains i))

/-- The `requestHint` handler (server.js lines 232-254): collect the indices
of the answer not yet in `hintedIndices`; if none remain, emit a
no-more-hints error; otherwise pick a random available index (`r` models the
random draw), add it to the set, and broadcast `{index, letter}`. -/
def requestHint (sid : String) (currentRoom : Option String)
    (rooms : List (String × Room)) (r : Nat) : HandlerResult :=
  match currentRoom with
  | none => ⟨rooms, none, [Emit.toSocket sid (EventPayload.errorMsg "You are not in a room")]⟩
  | some code =>
    match alookup rooms code with
    | none => ⟨rooms, some code, [Emit.toSocket sid (EventPayload.errorMsg "You are not in a room")]⟩
    | some room =>
      let available := availableIndices room
      if available.length = 0 then
        ⟨rooms, some code, [Emit.toSocket sid (EventPayload.errorMsg "No more hints available")]⟩
      else
        let idx := available.getD (r % available.length) 0
        ⟨aupdate rooms code { room with hintedIndices := setAdd room.hintedIndices idx },
         some code,
         [Emit.toRoom code (EventPayload.hintEv idx (room.answer.getD idx ' '))]⟩

/-- The `createRoom` handler (server.js lines 124-156): rejected if the
connection is already bound to a room or the mode is invalid; otherwise a
fresh code is generated (`generateCode`, random and collision-free — passed
in as `code`) and an answer drawn (`chooseAnswer` — passed in as `answer`),
the room is inserted with the creator in `players` (with an avatar
descriptor, elided) and an EMPTY `attempts` map, and `roomCreated` is
emitted.  Note: the handler does not modify `currentRoom` and does not join
the socket to the room channel. -/
def createRoom (sid : String) (currentRoom : Option String)
    (rooms : List (String × Room)) (mode : String) (code : String)
    (answer : List Char) : HandlerResult :=
  match currentRoom with
  | some c => ⟨rooms, some c, [Emit.toSocket sid (EventPayload.errorMsg "You are already in a room")]⟩
  | none =>
    if mode ≠ "countries" ∧ mode ≠ "cities" ∧ mode ≠ "both" then
      ⟨rooms, none, [Emit.toSocket sid (EventPayload.errorMsg "Invalid game mode")]⟩
    else
      ⟨aupdate rooms code ⟨mode, answer, [sid], [], [], []⟩,
       none, [Emit.toSocket sid (EventPayload.roomCreated code)]⟩

/-- The `joinRoom` handler (server.js lines 159-214): rejects a falsy code
or a connection already in a room or an unknown code; otherwise binds
`currentRoom`, adds the player to the roster, sets their attempts to `[]`,
and emits the join payload to the joiner plus `playerJoined` to the others
(avatar bookkeeping elided). -/
def joinRoom (sid : String) (currentRoom : Option String)
    (rooms : List (String × Room)) (code : String) : HandlerResult :=
  if code = "" then
    ⟨rooms, currentRoom, [Emit.toSocket sid (EventPayload.errorMsg "Room code is required")]⟩
  else
    match currentRoom with
    | some c => ⟨rooms, some c, [Emit.toSocket sid (EventPayload.errorMsg "You are already in a room")]⟩
    | none =>
      match alookup rooms code with
      | none => ⟨rooms, none, [Emit.toSocket sid (EventPayload.errorMsg "Room not found")]⟩
      | some room =>
        let room2 := { room with
          players := if sid ∈ room.players then room.players else room.players ++ [sid],
          attempts := aupdate room.attempts sid [] }
        ⟨aupdate rooms code room2, some code,
         [Emit.toSocket sid (EventPayload.joined code room.answer.length MAX_ATTEMPTS),
          Emit.toRoomExcept code sid (EventPayload.playerJoined sid)]⟩

/-! ### Helper lemmas -/

theorem zipWith_getD_of_lt {α β γ : Type} (f : α → β → γ) (l1 : List α) :
    ∀ (l2 : List β) (i : Nat), i < l1.length → i < l2.length →
      ∀ (d1 : α) (d2 : β) (dc : γ),
        (List.zipWith f l1 l2).getD i dc = f (l1.getD i d1) (l2.getD i d2) := by
  induction l1 with
  | nil => intro l2 i h1; simp at h1
  | cons a l1 ih =>
    intro l2 i h1 h2
    cases l2 with
    | nil => simp at h2
    | cons b l2 =>
      cases i with
      | zero => intro d1 d2 dc; rfl
      | succ i =>
        intro d1 d2 dc
        simpa using ih l2 i (by simpa using h1) (by simpa using h2) d1 d2 dc

theorem getD_mem_of_lt {α : Type} (l : List α) :
    ∀ (i : Nat), i < l.length → ∀ (d : α), l.getD i d ∈ l := by
  induction l with
  | nil => intro i h; simp at h
  | cons a l ih =>
    intro i h d
    cases i with
    | zero => simp
    | succ i =>
      have h2 := ih i (by simpa using h) d
      have hstep : (a :: l).getD (i + 1) d = l.getD i d := rfl
      rw [hstep]
      exact List.mem_cons_of_mem a h2

theorem alookup_adelete_self {α : Type} (m : List (String × α)) (key : String) :
    alookup (adelete m key) key = none := by
  induction m with
  | nil => rfl
  | cons p rest ih =>
    by_cases h : p.1 = key
    · simpa [adelete, h] using ih
    · simpa [adelete, h, alookup] using ih

theorem alookup_aupdate_self {α : Type} (m : List (String × α)) (key : String)
    (v : α) : alookup (aupdate m key v) key = some v := by
  induction m with
  | nil => simp [aupdate, alookup]
  | cons p rest ih =>
    by_cases h : p.1 = key
    · cases p with
      | mk k w => simp only at h; simp [aupdate, h, alookup]
    · cases p with
      | mk k w => simp only at h; simp [aupdate, h, alookup, ih]

/-! ### C1: guess feedback characterization -/

/-- C1: for a guess of the answer's length, position `i` of the feedback is
CORRECT iff the characters match positionally; PRESENT iff they differ but
the guessed character occurs anywhere in the answer; ABSENT otherwise — with
no frequency limiting (membership in the whole answer, independent of other
positions). -/
theorem C1_feedback_pointwise (answer guess : List Char)
    (hlen : guess.length = answer.length) (i : Nat) (hi : i < guess.length) :
    ((feedback answer guess).getD i Fb.absent = Fb.correct ↔
        guess.getD i ' ' = answer.getD i ' ')
  ∧ ((feedback answer guess).getD i Fb.absent = Fb.present ↔
        (guess.getD i ' ' ≠ answer.getD i ' ' ∧ guess.getD i ' ' ∈ answer))
  ∧ ((feedback answer guess).getD i Fb.absent = Fb.absent ↔
        (guess.getD i ' ' ≠ answer.getD i ' ' ∧ guess.getD i ' ' ∉ answer)) := by
  have h2 : i < answer.length := hlen ▸ hi
  have hfb : (feedback answer guess).getD i Fb.absent
      = feedbackChar answer (guess.getD i ' ') (answer.getD i ' ') :=
    zipWith_getD_of_lt (feedbackChar answer) guess answer i hi h2 (' ') (' ') Fb.absent
  rw [hfb]
  generalize guess.getD i ' ' = g
  generalize answer.getD i ' ' = a
  unfold feedbackChar
  by_cases he : g = a
  · simp [he]
  · by_cases hm : g ∈ answer
    · simp [he, hm]
    · simp [he, hm]

/-- Witness for C1 at answer `SPAIN`, guess `ITALY`, position 2 (the shared
letter A, non-positional, hence PRESENT). -/
theorem C1_feedback_pointwise_witness :
    (((feedback ("SPAIN".data) ("ITALY".data)).getD 2 Fb.absent = Fb.correct ↔
        ("ITALY".data).getD 2 ' ' = ("SPAIN".data).getD 2 ' ')
  ∧ (((feedback ("SPAIN".data) ("ITALY".data)).getD 2 Fb.absent = Fb.present ↔
        (("ITALY".data).getD 2 ' ' ≠ ("SPAIN".data).getD 2 ' ' ∧
          ("ITALY".data).getD 2 ' ' ∈ "SPAIN".data))
  ∧ ((feedback ("SPAIN".data) ("ITALY".data)).getD 2 Fb.absent = Fb.absent ↔
        (("ITALY".data).getD 2 ' ' ≠ ("SPAIN".data).getD 2 ' ' ∧
          ("ITALY".data).getD 2 ' ' ∉ "SPAIN".data)))) :=
  C1_feedback_pointwise ("SPAIN".data) ("ITALY".data) (by decide) 2 (by decide)

/-! ### The accepted-guess path of makeGuess -/

theorem makeGuess_accepted (ps : Pools) (sid code : String)
    (rooms : List (String × Room)) (room : Room) (s : String)
    (as : List (List Char))
    (hroom : alookup rooms code = some room)
    (hs : s ≠ "")
    (hlen : (normalizeGuess s).length = room.answer.length)
    (hpool : normalizeGuess s ∈ poolFor ps room.mode)
    (hatt : alookup room.attempts sid = some as) :
    makeGuess ps sid (some code) rooms (JsVal.str s) =
      (if normalizeGuess s = room.answer ∨ (as ++ [normalizeGuess s]).length ≥ MAX_ATTEMPTS then
         ⟨adelete rooms code, some code,
          [Emit.toRoom code (EventPayload.feedbackEv (normalizeGuess s)
             (feedback room.answer (normalizeGuess s)) sid),
           Emit.toRoom code (EventPayload.gameOver
             (if normalizeGuess s = room.answer then some sid else none) room.answer)]⟩
       else
         ⟨aupdate rooms code
            { room with attempts := aupdate room.attempts sid (as ++ [normalizeGuess s]) },
          some code,
          [Emit.toRoom code (EventPayload.feedbackEv (normalizeGuess s)
             (feedback room.answer (normalizeGuess s)) sid)]⟩) := by
  simp only [makeGuess, hroom, hs, hlen, hpool, hatt]
  simp

/-! ### C2: when the room reaches its terminal state -/

def poolsTwo : Pools := ⟨["SPAIN".data, "ITALY".data], []⟩

/-- A room on answer SPAIN where participant A has already used 5 attempts
and participant B none. -/
def roomC2 : Room :=
  ⟨"countries", "SPAIN".data, ["A", "B"],
   [("A", ["ITALY".data, "ITALY".data, "ITALY".data, "ITALY".data, "ITALY".data]),
    ("B", [])], [], []⟩

/-- C2 counterexample: participant A (5 prior attempts) submits the
non-winning guess "Italy" while participant B still has all 6 attempts
remaining; the handler nevertheless broadcasts game over with no winner and
deletes the room from the registry — refuting the claim that the room
only finishes once EVERY current participant has exhausted their budget. -/
theorem C2_counterexample :
    makeGuess poolsTwo "A" (some "R1") [("R1", roomC2)] (JsVal.str "Italy") =
      ⟨[], some "R1",
       [Emit.toRoom "R1" (EventPayload.feedbackEv ("ITALY".data)
          [Fb.present, Fb.absent, Fb.correct, Fb.absent, Fb.absent] "A"),
        Emit.toRoom "R1" (EventPayload.gameOver none ("SPAIN".data))]⟩
  ∧ alookup roomC2.attempts "B" = some []
  ∧ MAX_ATTEMPTS = 6 := by
  refine ⟨?_, rfl, rfl⟩
  rfl

/-- C2 (amended): the room transitions to Finished (game-over broadcast and
deletion from the registry) exactly when the submitted guess wins or the
SUBMITTING participant's attempt count reaches the max-attempt budget — the
attempt counts of the other participants are irrelevant (here an arbitrary
other participant with remaining budget is present). -/
theorem C2_amended_finish_condition (ps : Pools) (sid other code : String)
    (rooms : List (String × Room)) (room : Room) (s : String)
    (as bs : List (List Char))
    (hroom : alookup rooms code = some room)
    (hs : s ≠ "")
    (hlen : (normalizeGuess s).length = room.answer.length)
    (hpool : normalizeGuess s ∈ poolFor ps room.mode)
    (hatt : alookup room.attempts sid = some as)
    (hother : alookup room.attempts other = some bs)
    (hbs : bs.length < MAX_ATTEMPTS) :
    (alookup (makeGuess ps sid (some code) rooms (JsVal.str s)).rooms code = none
       ↔ (normalizeGuess s = room.answer ∨ as.length + 1 ≥ MAX_ATTEMPTS))
  ∧ ((normalizeGuess s ≠ room.answer ∧ as.length + 1 ≥ MAX_ATTEMPTS) →
       Emit.toRoom code (EventPayload.gameOver none room.answer) ∈
         (makeGuess ps sid (some code) rooms (JsVal.str s)).events) := by
  rw [makeGuess_accepted ps sid code rooms room s as hroom hs hlen hpool hatt]
  by_cases hc : normalizeGuess s = room.answer ∨ (as ++ [normalizeGuess s]).length ≥ MAX_ATTEMPTS
  · constructor
    · simp only [if_pos hc]
      have hd := alookup_adelete_self rooms code
      simp only [hd]
      constructor
      · intro _
        simpa using hc
      · intro _; trivial
    · intro hw
      simp only [if_pos hc]
      simp [hw.1]
  · constructor
    · simp only [if_neg hc]
      have hu := alookup_aupdate_self rooms code
        { room with attempts := aupdate room.attempts sid (as ++ [normalizeGuess s]) }
      simp only [hu]
      constructor
      · intro h; cases h
      · intro h
        exfalso
        apply hc
        simpa using h
    · intro hw
      exfalso
      apply hc
      right
      simpa using hw.2

/-- Witness for the C2 amended theorem at a concrete state: A (5 prior
attempts) guesses "Italy" in a room whose answer is SPAIN while B has 0
attempts used. -/
theorem C2_amended_finish_condition_witness :
    (alookup (makeGuess poolsTwo "A" (some "R1") [("R1", roomC2)]
        (JsVal.str "Italy")).rooms "R1" = none
       ↔ ((normalizeGuess "Italy" = roomC2.answer) ∨
            (["ITALY".data, "ITALY".data, "ITALY".data, "ITALY".data,
              "ITALY".data] : List (List Char)).length + 1 ≥ MAX_ATTEMPTS))
  ∧ (((normalizeGuess "Italy" ≠ roomC2.answer) ∧
        (["ITALY".data, "ITALY".data, "ITALY".data, "ITALY".data,
          "ITALY".data] : List (List Char)).length + 1 ≥ MAX_ATTEMPTS) →
       Emit.toRoom "R1" (EventPayload.gameOver none roomC2.answer) ∈
         (makeGuess poolsTwo "A" (some "R1") [("R1", roomC2)]
           (JsVal.str "Italy")).events) :=
  C2_amended_finish_condition poolsTwo "A" "B" "R1" [("R1", roomC2)] roomC2
    "Italy" _ [] rfl (by decide) (by decide) (by decide) rfl rfl (by decide)

/-! ### C3: a winning guess always finishes the room -/

/-- C3: submitting a guess whose normalized form equals the target ends the
room with the submitting participant as winner (game-over broadcast carries
`winner = sid`) and deletes the room from the registry, for ANY prior
attempt history of that participant. -/
theorem C3_winning_guess (ps : Pools) (sid code : String)
    (rooms : List (String × Room)) (room : Room) (s : String)
    (as : List (List Char))
    (hroom : alookup rooms code = some room)
    (hs : s ≠ "")
    (hnorm : normalizeGuess s = room.answer)
    (hpool : room.answer ∈ poolFor ps room.mode)
    (hatt : alookup room.attempts sid = some as) :
    (makeGuess ps sid (some code) rooms (JsVal.str s)).rooms = adelete rooms code
  ∧ alookup (makeGuess ps sid (some code) rooms (JsVal.str s)).rooms code = none
  ∧ Emit.toRoom code (EventPayload.gameOver (some sid) room.answer) ∈
      (makeGuess ps sid (some code) rooms (JsVal.str s)).events := by
  have hlen : (normalizeGuess s).length = room.answer.length := by rw [hnorm]
  have hpool2 : normalizeGuess s ∈ poolFor ps room.mode := by
    rw [hnorm]; exact hpool
  rw [makeGuess_accepted ps sid code rooms room s as hroom hs hlen hpool2 hatt]
  simp [hnorm, alookup_adelete_self]

/-- Witness for C3: participant A with 5 attempts already used guesses
"Spain" (normalizing to the answer SPAIN) and wins. -/
theorem C3_winning_guess_witness :
    (makeGuess poolsTwo "A" (some "R1") [("R1", roomC2)] (JsVal.str "Spain")).rooms
        = adelete [("R1", roomC2)] "R1"
  ∧ alookup (makeGuess poolsTwo "A" (some "R1") [("R1", roomC2)]
        (JsVal.str "Spain")).rooms "R1" = none
  ∧ Emit.toRoom "R1" (EventPayload.gameOver (some "A") roomC2.answer) ∈
      (makeGuess poolsTwo "A" (some "R1") [("R1", roomC2)] (JsVal.str "Spain")).events :=
  C3_winning_guess poolsTwo "A" "R1" [("R1", roomC2)] roomC2 "Spain" _
    rfl (by decide) (by decide) (by decide) rfl

/-! ### C4: incorrect guesses finish the room exactly at the budget -/

/-- C4: an accepted incorrect guess never ends the room while the
participant's new attempt count is below `MAX_ATTEMPTS` (the room stays in
the registry with the attempt recorded and only the feedback broadcast is
issued), and ends the room with no winner as soon as the new count reaches
`MAX_ATTEMPTS`. -/
theorem C4_budget_exhaustion (ps : Pools) (sid code : String)
    (rooms : List (String × Room)) (room : Room) (s : String)
    (as : List (List Char))
    (hroom : alookup rooms code = some room)
    (hs : s ≠ "")
    (hlen : (normalizeGuess s).length = room.answer.length)
    (hpool : normalizeGuess s ∈ poolFor ps room.mode)
    (hatt : alookup room.attempts sid = some as)
    (hwrong : normalizeGuess s ≠ room.answer) :
    (as.length + 1 < MAX_ATTEMPTS →
        alookup (makeGuess ps sid (some code) rooms (JsVal.str s)).rooms code =
          some { room with
            attempts := aupdate room.attempts sid (as ++ [normalizeGuess s]) }
      ∧ (makeGuess ps sid (some code) rooms (JsVal.str s)).events =
          [Emit.toRoom code (EventPayload.feedbackEv (normalizeGuess s)
             (feedback room.answer (normalizeGuess s)) sid)])
  ∧ (as.length + 1 ≥ MAX_ATTEMPTS →
        (makeGuess ps sid (some code) rooms (JsVal.str s)).rooms = adelete rooms code
      ∧ alookup (makeGuess ps sid (some code) rooms (JsVal.str s)).rooms code = none
      ∧ (makeGuess ps sid (some code) rooms (JsVal.str s)).events =
          [Emit.toRoom code (EventPayload.feedbackEv (normalizeGuess s)
             (feedback room.answer (normalizeGuess s)) sid),
           Emit.toRoom code (EventPayload.gameOver none room.answer)]) := by
  rw [makeGuess_accepted ps sid code rooms room s as hroom hs hlen hpool hatt]
  constructor
  · intro hlt
    have hc : ¬(normalizeGuess s = room.answer ∨
        (as ++ [normalizeGuess s]).length ≥ MAX_ATTEMPTS) := by
      push_neg
      refine ⟨hwrong, ?_⟩
      simpa using hlt
    simp only [if_neg hc]
    exact ⟨alookup_aupdate_self rooms code _, trivial⟩
  · intro hge
    have hc : normalizeGuess s = room.answer ∨
        (as ++ [normalizeGuess s]).length ≥ MAX_ATTEMPTS := by
      right
      simpa using hge
    simp only [if_pos hc]
    refine ⟨trivial, alookup_adelete_self rooms code, ?_⟩
    simp [hwrong]

/-- Witness for C4: participant A, 5 prior attempts, guesses "Italy" against
SPAIN — the 6th recorded attempt — ending the room with no winner. -/
theorem C4_budget_exhaustion_witness :
    ((["ITALY".data, "ITALY".data, "ITALY".data, "ITALY".data,
        "ITALY".data] : List (List Char)).length + 1 < MAX_ATTEMPTS →
        alookup (makeGuess poolsTwo "A" (some "R1") [("R1", roomC2)]
            (JsVal.str "Italy")).rooms "R1" =
          some { roomC2 with
            attempts := aupdate roomC2.attempts "A"
              (["ITALY".data, "ITALY".data, "ITALY".data, "ITALY".data,
                "ITALY".data] ++ [normalizeGuess "Italy"]) }
      ∧ (makeGuess poolsTwo "A" (some "R1") [("R1", roomC2)]
            (JsVal.str "Italy")).events =
          [Emit.toRoom "R1" (EventPayload.feedbackEv (normalizeGuess "Italy")
             (feedback roomC2.answer (normalizeGuess "Italy")) "A")])
  ∧ ((["ITALY".data, "ITALY".data, "ITALY".data, "ITALY".data,
        "ITALY".data] : List (List Char)).length + 1 ≥ MAX_ATTEMPTS →
        (makeGuess poolsTwo "A" (some "R1") [("R1", roomC2)]
            (JsVal.str "Italy")).rooms = adelete [("R1", roomC2)] "R1"
      ∧ alookup (makeGuess poolsTwo "A" (some "R1") [("R1", roomC2)]
            (JsVal.str "Italy")).rooms "R1" = none
      ∧ (makeGuess poolsTwo "A" (some "R1") [("R1", roomC2)]
            (JsVal.str "Italy")).events =
          [Emit.toRoom "R1" (EventPayload.feedbackEv (normalizeGuess "Italy")
             (feedback roomC2.answer (normalizeGuess "Italy")) "A"),
           Emit.toRoom "R1" (EventPayload.gameOver none roomC2.answer)]) :=
  C4_budget_exhaustion poolsTwo "A" "R1" [("R1", roomC2)] roomC2 "Italy" _
    rfl (by decide) (by decide) (by decide) rfl (by decide)

/-! ### C5: hints never repeat an index -/

theorem setAdd_of_not_mem (s : List Nat) (x : Nat) (h : x ∉ s) :
    setAdd s x = s ++ [x] := by
  simp [setAdd, h]

theorem mem_setAdd (s : List Nat) (x j : Nat) (hj : j ∈ setAdd s x) :
    j ∈ s ∨ j = x := by
  by_cases h : x ∈ s
  · simp only [setAdd, if_pos h] at hj
    exact Or.inl hj
  · simp only [setAdd, if_neg h] at hj
    simpa using hj

/-- C5: provided the revealed set is within the word's index range, a hint
request either (all indices revealed) fails with the no-more-hints error and
leaves the registry — hence the revealed set — unchanged, or picks an index
below the word length that was NOT previously revealed, broadcasts it, and
extends the revealed set by exactly that index (strict growth, still within
range).  Never revealing the same index twice within the room's lifetime
follows: every successful call returns an index outside the current set and
puts it in. -/
theorem C5_hint_no_repeat (sid code : String) (rooms : List (String × Room))
    (room : Room) (r : Nat)
    (hroom : alookup rooms code = some room)
    (hsub : ∀ i ∈ room.hintedIndices, i < room.answer.length) :
    (availableIndices room = [] →
      requestHint sid (some code) rooms r =
        ⟨rooms, some code,
         [Emit.toSocket sid (EventPayload.errorMsg "No more hints available")]⟩)
  ∧ (availableIndices room ≠ [] →
      ∃ idx,
        idx < room.answer.length
      ∧ idx ∉ room.hintedIndices
      ∧ setAdd room.hintedIndices idx = room.hintedIndices ++ [idx]
      ∧ (∀ j ∈ setAdd room.hintedIndices idx, j < room.answer.length)
      ∧ alookup (requestHint sid (some code) rooms r).rooms code =
          some { room with hintedIndices := setAdd room.hintedIndices idx }
      ∧ (requestHint sid (some code) rooms r).events =
          [Emit.toRoom code (EventPayload.hintEv idx (room.answer.getD idx ' '))]) := by
  constructor
  · intro hempty
    simp only [requestHint, hroom]
    rw [if_pos (by rw [hempty]; rfl)]
  · intro hne
    have hlenpos : 0 < (availableIndices room).length := List.length_pos.mpr hne
    have hmod : r % (availableIndices room).length < (availableIndices room).length :=
      Nat.mod_lt r hlenpos
    have hmem := getD_mem_of_lt (availableIndices room) _ hmod 0
    have hmem2 : (availableIndices room).getD (r % (availableIndices room).length) 0 ∈
        (List.range room.answer.length).filter
          (fun i => !(room.hintedIndices.contains i)) := hmem
    have hidxlt : (availableIndices room).getD (r % (availableIndices room).length) 0 <
        room.answer.length :=
      List.mem_range.mp (List.mem_of_mem_filter hmem2)
    have hidxnot : (availableIndices room).getD (r % (availableIndices room).length) 0 ∉
        room.hintedIndices := by
      have hf := (List.mem_filter.mp hmem2).2
      simpa using hf
    refine ⟨(availableIndices room).getD (r % (availableIndices room).length) 0,
      hidxlt, hidxnot, ?_, ?_, ?_, ?_⟩
    · exact setAdd_of_not_mem _ _ hidxnot
    · intro j hj
      rcases mem_setAdd _ _ _ hj with hj2 | hj2
      · exact hsub j hj2
      · rw [hj2]; exact hidxlt
    · simp only [requestHint, hroom]
      rw [if_neg (by omega)]
      exact alookup_aupdate_self rooms code _
    · simp only [requestHint, hroom]
      rw [if_neg (by omega)]

/-- A room on answer ROME with indices 0 and 2 already revealed. -/
def roomC5 : Room := ⟨"cities", "ROME".data, ["A"], [("A", [])], [0, 2], []⟩

/-- Witness for C5 on `roomC5` with random draw 1 (available indices are
1 and 3, so index 3 is picked). -/
theorem C5_hint_no_repeat_witness :
    (availableIndices roomC5 = [] →
      requestHint "A" (some "R1") [("R1", roomC5)] 1 =
        (⟨[("R1", roomC5)], some "R1",
         [Emit.toSocket "A" (EventPayload.errorMsg "No more hints available")]⟩ :
          HandlerResult))
  ∧ (availableIndices roomC5 ≠ [] →
      ∃ idx,
        idx < roomC5.answer.length
      ∧ idx ∉ roomC5.hintedIndices
      ∧ setAdd roomC5.hintedIndices idx = roomC5.hintedIndices ++ [idx]
      ∧ (∀ j ∈ setAdd roomC5.hintedIndices idx, j < roomC5.answer.length)
      ∧ alookup (requestHint "A" (some "R1") [("R1", roomC5)] 1).rooms "R1" =
          some { roomC5 with hintedIndices := setAdd roomC5.hintedIndices idx }
      ∧ (requestHint "A" (some "R1") [("R1", roomC5)] 1).events =
          [Emit.toRoom "R1" (EventPayload.hintEv idx (roomC5.answer.getD idx ' '))]) :=
  C5_hint_no_repeat "A" "R1" [("R1", roomC5)] roomC5 1 rfl (by decide)

/-! ### C6: the room chat log is NOT a bounded ring buffer -/

def oldMsg : ChatMsg := ⟨"old01", "old", 0⟩

/-- A room chat log already holding 50 messages (50 = the only chat
capacity constant in the program, `MAX_LOBBY_MESSAGES`). -/
def fullLog : List ChatMsg := List.replicate 50 oldMsg

def roomC6 : Room := ⟨"countries", "SPAIN".data, ["A"], [("A", [])], [], fullLog⟩

def newMsg : ChatMsg := ⟨"ABCDE", "hello", 7⟩

/-- C6 counterexample: posting to a room whose chat log already holds 50
messages yields a log of 51 messages with the oldest entry still present —
no eviction happens at any capacity; the room chat handler only appends.
(Only the LOBBY log is a bounded ring buffer.) -/
theorem C6_counterexample :
    ((alookup (chatMessage "ABCDEFGH" (some "R1") [("R1", roomC6)]
        "hello" 7).rooms "R1").map (fun rm => rm.messages)) =
      some (fullLog ++ [newMsg])
  ∧ fullLog.length = MAX_LOBBY_MESSAGES
  ∧ (fullLog ++ [newMsg]).length = MAX_LOBBY_MESSAGES + 1
  ∧ oldMsg ∈ fullLog ++ [newMsg] := by
  refine ⟨?_, by decide, by decide, by decide⟩
  rfl

/-- C6 (amended): posting a chat message to a room appends
`{sender, text, timestamp}` to the room's chat log with NO eviction — the
room log length always grows by one and is unbounded.  The bounded
ring-buffer behaviour (capacity `MAX_LOBBY_MESSAGES`) applies only to the
lobby log, whose handler keeps the length at most 50. -/
theorem C6_amended_room_chat_appends (sid code : String)
    (rooms : List (String × Room)) (room : Room) (text : String) (now : Nat)
    (lobby : List ChatMsg)
    (hroom : alookup rooms code = some room)
    (hlob : lobby.length ≤ MAX_LOBBY_MESSAGES) :
    alookup (chatMessage sid (some code) rooms text now).rooms code =
      some { room with messages := room.messages ++ [⟨idSlice5 sid, text, now⟩] }
  ∧ (chatMessage sid (some code) rooms text now).events =
      [Emit.toRoom code (EventPayload.chatMsg ⟨idSlice5 sid, text, now⟩)]
  ∧ (lobbyChatMessage sid lobby text now).1.length ≤ MAX_LOBBY_MESSAGES := by
  refine ⟨?_, ?_, ?_⟩
  · simp only [chatMessage, hroom]
    exact alookup_aupdate_self rooms code _
  · simp only [chatMessage, hroom]
  · simp only [lobbyChatMessage]
    by_cases h : MAX_LOBBY_MESSAGES < (lobby ++ [(⟨idSlice5 sid, text, now⟩ : ChatMsg)]).length
    · rw [if_pos h]
      have h2 : (lobby ++ [(⟨idSlice5 sid, text, now⟩ : ChatMsg)]).length =
          lobby.length + 1 := by simp
      rw [List.length_drop, h2]
      simp only [MAX_LOBBY_MESSAGES] at hlob ⊢
      omega
    · rw [if_neg h]
      omega

/-- Witness for the C6 amended theorem at a concrete room and a lobby of
length 50. -/
theorem C6_amended_room_chat_appends_witness :
    alookup (chatMessage "ABCDEFGH" (some "R1") [("R1", roomC6)]
        "hello" 7).rooms "R1" =
      some { roomC6 with
        messages := roomC6.messages ++ [⟨idSlice5 "ABCDEFGH", "hello", 7⟩] }
  ∧ (chatMessage "ABCDEFGH" (some "R1") [("R1", roomC6)] "hello" 7).events =
      [Emit.toRoom "R1" (EventPayload.chatMsg ⟨idSlice5 "ABCDEFGH", "hello", 7⟩)]
  ∧ (lobbyChatMessage "ABCDEFGH" fullLog "hello" 7).1.length ≤ MAX_LOBBY_MESSAGES :=
  C6_amended_room_chat_appends "ABCDEFGH" "R1" [("R1", roomC6)] roomC6
    "hello" 7 fullLog rfl (by decide)

/-! ### C7: createRoom does not bind the creator to the room -/

/-- C7: evaluation of the claim's scenario on the embedded handlers.  A
fresh connection S1 successfully creates a room (roomCreated is emitted and
the room, with S1 on its roster and an empty attempts map, is in the
registry), yet the connection's current-room reference stays `none`; a
subsequent room-scoped chat from S1 is rejected with the not-in-a-room
error, and a second create by the same connection succeeds, creating a
second room instead of being rejected as a state error.  This contradicts
the claim (and spec §4.5 "binds current-room on success"); the code's own
already-in-a-room guard (line 126) and its insertion of the creator into
the room's player map (line 144) only make sense if creation binds, so this
is recorded as a code bug. -/
theorem C7_create_does_not_bind :
    (createRoom "S1" none [] "countries" "CODE01" ("SPAIN".data)).currentRoom = none
  ∧ Emit.toSocket "S1" (EventPayload.roomCreated "CODE01") ∈
      (createRoom "S1" none [] "countries" "CODE01" ("SPAIN".data)).events
  ∧ alookup (createRoom "S1" none [] "countries" "CODE01" ("SPAIN".data)).rooms
      "CODE01" = some ⟨"countries", "SPAIN".data, ["S1"], [], [], []⟩
  ∧ (chatMessage "S1"
        (createRoom "S1" none [] "countries" "CODE01" ("SPAIN".data)).currentRoom
        (createRoom "S1" none [] "countries" "CODE01" ("SPAIN".data)).rooms
        "hello" 5).events
      = [Emit.toSocket "S1" (EventPayload.errorMsg "You are not in a room")]
  ∧ Emit.toSocket "S1" (EventPayload.roomCreated "CODE02") ∈
      (createRoom "S1"
        (createRoom "S1" none [] "countries" "CODE01" ("SPAIN".data)).currentRoom
        (createRoom "S1" none [] "countries" "CODE01" ("SPAIN".data)).rooms
        "countries" "CODE02" ("ITALY".data)).events := by
  refine ⟨rfl, ?_, rfl, rfl, ?_⟩
  · simp [createRoom]
  · simp [createRoom]

/-! ### C8: empty-after-trim guesses hit the length check, not invalid-input -/

def roomC8 : Room := ⟨"countries", "SPAIN".data, ["A"], [("A", [])], [], []⟩

/-- C8 counterexample: a whitespace-only guess ("   ") is a non-empty
string, so it passes the `!guess || typeof guess !== "string"` check, is
normalized to the empty string, and then fails the LENGTH check — the
handler emits "Guess must be 5 letters", not the invalid-input error the
claim requires for guesses empty after trimming. -/
theorem C8_counterexample :
    makeGuess poolsTwo "A" (some "R1") [("R1", roomC8)] (JsVal.str "   ") =
      (⟨[("R1", roomC8)], some "R1",
       [Emit.toSocket "A" (EventPayload.errorMsg "Guess must be 5 letters")]⟩ :
        HandlerResult)
  ∧ normalizeGuess "   " = [] := by
  exact ⟨rfl, rfl⟩

/-- C8 (amended): the invalid-input error is emitted exactly when the raw
guess is not a string or is the EMPTY string (JS falsiness); a non-empty
guess whose normalized form has a different length than the target — which
includes whitespace-only guesses, normalizing to length 0 — gets the
length-mismatch error instead.  In every such validation failure the
handler returns with the registry unchanged and only the one error
emission to the submitting connection. -/
theorem C8_amended_validation (ps : Pools) (sid code : String)
    (rooms : List (String × Room)) (room : Room) (s : String)
    (hroom : alookup rooms code = some room)
    (hs : s ≠ "")
    (hlen : (normalizeGuess s).length ≠ room.answer.length) :
    makeGuess ps sid (some code) rooms JsVal.nonString =
      (⟨rooms, some code,
        [Emit.toSocket sid (EventPayload.errorMsg "Invalid guess")]⟩ : HandlerResult)
  ∧ makeGuess ps sid (some code) rooms (JsVal.str "") =
      (⟨rooms, some code,
        [Emit.toSocket sid (EventPayload.errorMsg "Invalid guess")]⟩ : HandlerResult)
  ∧ makeGuess ps sid (some code) rooms (JsVal.str s) =
      (⟨rooms, some code,
        [Emit.toSocket sid (EventPayload.errorMsg
          ("Guess must be " ++ toString room.answer.length ++ " letters"))]⟩ :
        HandlerResult) := by
  refine ⟨?_, ?_, ?_⟩
  · simp [makeGuess, hroom]
  · simp [makeGuess, hroom]
  · simp [makeGuess, hroom, hs, hlen]

/-- Witness for the C8 amended theorem: room on SPAIN, whitespace-only
guess "   " (normalized length 0 ≠ 5). -/
theorem C8_amended_validation_witness :
    makeGuess poolsTwo "A" (some "R1") [("R1", roomC8)] JsVal.nonString =
      (⟨[("R1", roomC8)], some "R1",
        [Emit.toSocket "A" (EventPayload.errorMsg "Invalid guess")]⟩ : HandlerResult)
  ∧ makeGuess poolsTwo "A" (some "R1") [("R1", roomC8)] (JsVal.str "") =
      (⟨[("R1", roomC8)], some "R1",
        [Emit.toSocket "A" (EventPayload.errorMsg "Invalid guess")]⟩ : HandlerResult)
  ∧ makeGuess poolsTwo "A" (some "R1") [("R1", roomC8)] (JsVal.str "   ") =
      (⟨[("R1", roomC8)], some "R1",
        [Emit.toSocket "A" (EventPayload.errorMsg
          ("Guess must be " ++ toString roomC8.answer.length ++ " letters"))]⟩ :
        HandlerResult) :=
  C8_amended_validation poolsTwo "A" "R1" [("R1", roomC8)] roomC8 "   "
    rfl (by decide) (by decide)

/-! ### C9: drawn words are pool members but need not be purely alphabetic -/

def usSource : String := "United States"

def poolsC9 : Pools := ⟨[normalizeCountryName usSource], []⟩

/-- C9 counterexample: the startup normalization keeps spaces (the regex
character class is `[^A-Z ]`), so the source name "United States" becomes
the pool word "UNITED STATES", which contains a space; a draw in countries
mode can return it, refuting both "consisting only of uppercase alphabetic
characters" and the claim's description of the pool as "source names with
all non-letter characters stripped". -/
theorem C9_counterexample :
    normalizeCountryName usSource = "UNITED STATES".data
  ∧ chooseAnswer poolsC9 "countries" 0 = "UNITED STATES".data
  ∧ (' ') ∈ chooseAnswer poolsC9 "countries" 0
  ∧ ¬(∀ c ∈ chooseAnswer poolsC9 "countries" 0, ('A' ≤ c ∧ c ≤ 'Z'))
  ∧ normalizeCountryName usSource ≠ specStripNonLetters usSource := by
  decide

/-- C9 (amended): for any mode, when the selected pool is non-empty the
drawn word is a member of that pool, and is non-empty whenever every pool
word is; every character of a normalized country name is an uppercase
letter OR A SPACE (spaces are not stripped). -/
theorem C9_amended_draw (ps : Pools) (mode : String) (r : Nat) (s : String)
    (hpool : poolFor ps mode ≠ [])
    (hne : ∀ w ∈ poolFor ps mode, w ≠ []) :
    chooseAnswer ps mode r ∈ poolFor ps mode
  ∧ chooseAnswer ps mode r ≠ []
  ∧ (∀ c ∈ normalizeCountryName s, (('A' ≤ c ∧ c ≤ 'Z') ∨ c = ' ')) := by
  have hlenpos : 0 < (poolFor ps mode).length := List.length_pos.mpr hpool
  have hmem : chooseAnswer ps mode r ∈ poolFor ps mode := by
    unfold chooseAnswer
    exact getD_mem_of_lt (poolFor ps mode) _ (Nat.mod_lt r hlenpos) []
  refine ⟨hmem, hne _ hmem, ?_⟩
  intro c hc
  unfold normalizeCountryName at hc
  have hf := (List.mem_filter.mp hc).2
  simp only [Bool.or_eq_true, Bool.and_eq_true, decide_eq_true_eq, beq_iff_eq] at hf
  exact hf

/-- Witness for the C9 amended theorem on the one-word pool built from
"United States". -/
theorem C9_amended_draw_witness :
    chooseAnswer poolsC9 "countries" 3 ∈ poolFor poolsC9 "countries"
  ∧ chooseAnswer poolsC9 "countries" 3 ≠ []
  ∧ (∀ c ∈ normalizeCountryName usSource, (('A' ≤ c ∧ c ≤ 'Z') ∨ c = ' ')) :=
  C9_amended_draw poolsC9 "countries" 3 usSource (by decide) (by decide)

/-! ### C10: non-pool guesses are rejected without consuming an attempt -/

/-- C10: a bound participant's guess that is a non-empty string of the
correct length but not a member of the mode's pool produces exactly one
emission — the invalid-location/country/city error to the submitting
connection only — and leaves the registry (hence every attempt history,
the revealed-index set, and registry membership) unchanged: no feedback
broadcast, no game over, no deletion.  Only pool words consume attempts. -/
theorem C10_pool_rejection (ps : Pools) (sid code : String)
    (rooms : List (String × Room)) (room : Room) (s : String)
    (hroom : alookup rooms code = some room)
    (hs : s ≠ "")
    (hlen : (normalizeGuess s).length = room.answer.length)
    (hpool : normalizeGuess s ∉ poolFor ps room.mode) :
    makeGuess ps sid (some code) rooms (JsVal.str s) =
      (⟨rooms, some code,
        [Emit.toSocket sid (EventPayload.errorMsg (invalidWordMsg room.mode))]⟩ :
        HandlerResult) := by
  simp [makeGuess, hroom, hs, hlen, hpool]

/-- Witness for C10: "Tokyo" has the right length but is not in the
two-word countries pool, so the handler answers "Invalid country" and the
registry is unchanged. -/
theorem C10_pool_rejection_witness :
    makeGuess poolsTwo "A" (some "R1") [("R1", roomC8)] (JsVal.str "Tokyo") =
      (⟨[("R1", roomC8)], some "R1",
        [Emit.toSocket "A" (EventPayload.errorMsg (invalidWordMsg roomC8.mode))]⟩ :
        HandlerResult) :=
  C10_pool_rejection poolsTwo "A" "R1" [("R1", roomC8)] roomC8 "Tokyo"
    rfl (by decide) (by decide) (by decide)

end GeoWordle
